import Mathlib

/-!
Verification of the coreason-codex inference engine core against its
natural-language specification.  The Python source is shallowly embedded:
pure query logic becomes Lean functions, the relational store is a list of
rows queried in table order, the vector store and the embedder are supplied
as function parameters, and fallible operations return `Except`.
Floating-point scores are modelled with `Rat` (the score arithmetic used by
the code is exact subtraction `1.0 - distance`).
-/

namespace Codex

/-- OMOP concept row, mirroring `coreason_codex.schemas.Concept`
(pydantic model): `standard_concept` is optional, all other hydrated
columns are required. -/
structure Concept where
  concept_id : Int
  concept_name : String
  domain_id : String
  vocabulary_id : String
  concept_class_id : String
  standard_concept : Option String
  concept_code : String
deriving Repr, DecidableEq

/-- One row of `coreason_codex.schemas.Manifest` ignored here; the manifest
checksums are passed to the loader model as an ordered list of
`(path, expected_hex)` pairs, matching Python dict insertion order. -/
structure ConceptRelationship where
  concept_id_1 : Int
  concept_id_2 : Int
  relationship_id : String
  invalid_reason : Option String
deriving Repr, DecidableEq

/-- Result record, mirroring `coreason_codex.schemas.CodexMatch`. -/
structure CodexMatch where
  input_text : String
  match_concept : Concept
  similarity_score : Rat
  is_standard : Bool
  mapped_standard_id : Option Int
deriving Repr, DecidableEq

/-- One vector-search hit as returned by
`self.table.search(vector).limit(k).to_list()` in
`CodexNormalizer.normalize`: the fields of the row dict that the code
reads (`concept_id` and `_distance`). -/
structure VecResult where
  concept_id : Int
  dist : Rat
deriving Repr, DecidableEq

/-- The loop
`for r in results: if c_id not in concept_scores: concept_scores[c_id] = 1.0 - r["_distance"]`
from `CodexNormalizer.normalize` (normalizer.py lines 77-81).  `seen` is
the current key set of the dict; entries are produced in insertion order,
keeping the first (best) score for each id. -/
def buildScoresAux (seen : List Int) : List VecResult → List (Int × Rat)
  | [] => []
  | r :: rs =>
    if r.concept_id ∈ seen then buildScoresAux seen rs
    else (r.concept_id, 1 - r.dist) :: buildScoresAux (r.concept_id :: seen) rs

/-- The `concept_scores` dict after the score-keying loop. -/
def conceptScores (rs : List VecResult) : List (Int × Rat) :=
  buildScoresAux [] rs

/-- Python `dict.get(c_id, 0.0)` on the insertion-ordered score map. -/
def scoreGetD (m : List (Int × Rat)) (i : Int) (d : Rat) : Rat :=
  match m.find? (fun p => p.1 == i) with
  | some p => p.2
  | none => d

/-- Python `not text.strip()` from the trim guard: `str.strip()` with no
arguments removes whitespace from both ends, so the stripped text is empty
exactly when every character of the input is whitespace. -/
def strippedEmpty (s : String) : Bool :=
  s.toList.all Char.isWhitespace

/-- The DuckDB hydration query of `CodexNormalizer.normalize`
(normalizer.py lines 90-110): `SELECT ... FROM concept WHERE concept_id IN
(ids)` plus, when `domain_filter` is truthy (Python `if domain_filter:` is
false for `None` and for the empty string), the parameter-bound clause
`AND domain_id = ?`.  The relational store is modelled as returning rows
in table order. -/
def hydrate (tbl : List Concept) (ids : List Int) (domain_filter : Option String) :
    List Concept :=
  tbl.filter (fun c =>
    ids.contains c.concept_id &&
      match domain_filter with
      | some d => if d == "" then true else c.domain_id == d
      | none => true)

/-- Stable descending insertion for `matches.sort(key=..., reverse=True)`:
an element is placed after every earlier element with an equal or larger
score, which is exactly the stable descending order Python list.sort
produces. -/
def insertByScoreDesc (m : CodexMatch) : List CodexMatch → List CodexMatch
  | [] => [m]
  | x :: xs =>
    if m.similarity_score ≥ x.similarity_score then m :: x :: xs
    else x :: insertByScoreDesc m xs

/-- Model of `matches.sort(key=lambda x: x.similarity_score, reverse=True)`. -/
def sortByScoreDesc (l : List CodexMatch) : List CodexMatch :=
  l.foldr insertByScoreDesc []

/-- The two read handles `CodexNormalizer` holds: the vector table (its
ranked search, ascending distance by the engine contract) and the DuckDB
`concept` table. -/
structure NormStore where
  search : List Rat → List VecResult
  concept : List Concept

/-- Model of `CodexNormalizer.normalize(text, k, domain_filter)` (normalizer.py
lines 50-156): trim guard, embed, vector search limited to `k`, empty-result
guard, first-score keying, hydration with the optional domain clause, match
construction (with `mapped_standard_id=None`, lines 143-151), stable
descending sort. -/
def normalize (embed : String → List Rat) (st : NormStore)
    (text : String) (k : Nat) (domain_filter : Option String) : List CodexMatch :=
  if strippedEmpty text then []
  else
    let vector := embed text
    let results := (st.search vector).take k
    if results.isEmpty then []
    else
      let scores := conceptScores results
      let ids := scores.map (fun p => p.1)
      let rows := hydrate st.concept ids domain_filter
      let ms := rows.map (fun c =>
        { input_text := text
          match_concept := c
          similarity_score := scoreGetD scores c.concept_id 0
          is_standard := c.standard_concept == some "S"
          mapped_standard_id := none : CodexMatch })
      sortByScoreDesc ms

/-- Modelled from the spec: the regex guard `^[A-Za-z0-9_]+$` that the
spec requires on `domain_filter` (spec section 4.3 step 2).  The source
`CodexNormalizer.normalize` contains no such check; this definition exists
only to state the claim. -/
def spec_domainFilterValid (s : String) : Bool :=
  !(s == "") && s.toList.all (fun c => c.isAlphanum || c == '_')

/-- Modelled from the spec: an active `"Maps to"` edge from `src` to a
standard concept `tgt` (spec section 4.3 step 7).  Used only to state the
standard-elevation claim against the source. -/
def spec_activeMapsToStandard (rels : List ConceptRelationship)
    (tbl : List Concept) (src tgt : Int) : Bool :=
  rels.any (fun e =>
    e.concept_id_1 == src && e.concept_id_2 == tgt &&
      e.relationship_id == "Maps to" && e.invalid_reason == none) &&
  tbl.any (fun c => c.concept_id == tgt && c.standard_concept == some "S")

/-! ## Loader: `CodexLoader.verify_integrity` (loader.py lines 95-139) -/

/-- The filesystem facts `verify_integrity` consults for an entry path,
abstracted as total functions: `resolvesInsideRoot name` is
`file_path.resolve().is_relative_to(pack_root)`, `pathExists name` is
`file_path.exists()` (which follows symlinks), `isSymlink name` is
`file_path.is_symlink()`, and `sha256 name` is `self._compute_sha256`
(file hash or canonical directory hash). -/
structure PackFS where
  resolvesInsideRoot : String → Bool
  pathExists : String → Bool
  isSymlink : String → Bool
  sha256 : String → String

/-- The error kinds `verify_integrity` raises, by the message of the
exception in loader.py. -/
inductive VerifyError where
  | pathTraversal (name : String)
  | artifactMissing (name : String)
  | symlinkViolation (name : String)
  | integrityMismatch (name : String)
deriving Repr, DecidableEq

/-- Observable filesystem probes of `verify_integrity`, recorded in
execution order; `hashed name` marks a SHA-256 computation over the
artifact at `name`. -/
inductive VEvent where
  | pathCheck (name : String)
  | existCheck (name : String)
  | symlinkCheck (name : String)
  | hashed (name : String)
deriving Repr, DecidableEq

/-- The per-entry loop of `CodexLoader.verify_integrity` (loader.py lines
108-136) over the manifest checksums in insertion order.  For each entry:
resolve and require descendance of the pack root (else path traversal),
then require existence (else missing artifact), then reject symlinks,
then compute the SHA-256 and compare to the expected hex.  Returns the
probe trace and the outcome. -/
def verifyEntries (fs : PackFS) :
    List (String × String) → List VEvent × Except VerifyError Unit
  | [] => ([], .ok ())
  | (name, expected) :: rest =>
    if !fs.resolvesInsideRoot name then
      ([.pathCheck name], .error (.pathTraversal name))
    else if !fs.pathExists name then
      ([.pathCheck name, .existCheck name], .error (.artifactMissing name))
    else if fs.isSymlink name then
      ([.pathCheck name, .existCheck name, .symlinkCheck name],
        .error (.symlinkViolation name))
    else if fs.sha256 name ≠ expected then
      ([.pathCheck name, .existCheck name, .symlinkCheck name, .hashed name],
        .error (.integrityMismatch name))
    else
      let (evs, r) := verifyEntries fs rest
      (.pathCheck name :: .existCheck name :: .symlinkCheck name ::
        .hashed name :: evs, r)

/-- All four checks of one entry succeed (the manifest entry is clean). -/
def entryClean (fs : PackFS) (p : String × String) : Bool :=
  fs.resolvesInsideRoot p.1 && fs.pathExists p.1 &&
    !fs.isSymlink p.1 && (fs.sha256 p.1 == p.2)

/-! ## Runtime context: `CodexContext` (pipeline.py lines 27-74) -/

/-- The component handles `CodexContext.__init__` stores on success. -/
structure CodexContext (Conn VDB Emb Norm Hier Cross : Type) where
  duckdb_conn : Conn
  lancedb_conn : VDB
  embedder : Emb
  normalizer : Norm
  hierarchy : Hier
  crosswalker : Cross

/-- Model of `CodexContext.__init__(pack_path)` (pipeline.py lines 34-49): run the
loader (`load_codex`, which verifies integrity and opens both stores),
construct the embedder, then the normalizer, hierarchy and crosswalker;
any stage may raise, aborting construction. -/
def constructContext {E Conn VDB Emb Norm Hier Cross : Type}
    (load_codex : String → Except E (Conn × VDB))
    (mkEmbedder : Unit → Except E Emb)
    (mkNormalizer : Emb → Conn → VDB → Except E Norm)
    (mkHierarchy : Conn → Except E Hier)
    (mkCrosswalker : Conn → Except E Cross)
    (pack_path : String) : Except E (CodexContext Conn VDB Emb Norm Hier Cross) := do
  let conns ← load_codex pack_path
  let emb ← mkEmbedder ()
  let norm ← mkNormalizer emb conns.1 conns.2
  let hier ← mkHierarchy conns.1
  let cross ← mkCrosswalker conns.1
  pure ⟨conns.1, conns.2, emb, norm, hier, cross⟩

/-- Model of `CodexContext.initialize(pack_path)` (pipeline.py lines 66-68):
`cls._instance = cls(pack_path)` — the right-hand side is evaluated
first; only on success is the class attribute assigned.  `construct`
abstracts `cls(pack_path)`; the pair returned is the new `_instance`
slot and the surfaced outcome. -/
def initStep {E Ctx : Type} (construct : String → Except E Ctx)
    (slot : Option Ctx) (pack_path : String) : Option Ctx × Except E Unit :=
  match construct pack_path with
  | .ok c => (some c, .ok ())
  | .error e => (slot, .error e)

/-- Error kind of `CodexContext.get_instance()` (pipeline.py lines 70-74). -/
inductive GetInstanceError where
  | notInitialized
deriving Repr, DecidableEq

/-- Model of `get_instance`: it returns the `_instance` slot or raises
`RuntimeError("CodexContext not initialized...")`. -/
def getInstance {Ctx : Type} (slot : Option Ctx) : Except GetInstanceError Ctx :=
  match slot with
  | none => .error .notInitialized
  | some c => .ok c

/-! ## Builder: `CodexBuilder.build_vocab` (build.py lines 52-97) -/

/-- Observable output-directory state for the relational artifact:
whether `vocab.duckdb` exists and whether the build connection is open. -/
structure BuildSt where
  fileExists : Bool
  connOpen : Bool
deriving Repr, DecidableEq

/-- Effect of `db_path.unlink(missing_ok=True)`. -/
def doUnlink (s : BuildSt) : BuildSt := { s with fileExists := false }

/-- Effect of `con.close()`. -/
def doClose (s : BuildSt) : BuildSt := { s with connOpen := false }

/-- Effect of `duckdb.connect(str(db_path))` on success: creates the store file and
an open handle. -/
def doConnect (_ : BuildSt) : BuildSt := { fileExists := true, connOpen := true }

/-- The error surfaced by `build_vocab`:
`RuntimeError(f"Build failed: {e}")` wrapping the stage exception. -/
inductive BuildError (E : Type) where
  | buildFailed (e : E)
deriving Repr, DecidableEq

/-- Model of `CodexBuilder.build_vocab` after `_verify_source_files` (build.py
lines 64-97), with the outcome of each store operation supplied as a
parameter: delete any prior file, connect (on connect failure `con` is
still `None`, so the except branch only unlinks), then load the three
tables and create the indexes inside the try block; on success close the
handle and return; on any stage failure close the handle, unlink the
partial file, and surface `BuildFailed`. -/
def build_vocab {E : Type} (s0 : BuildSt)
    (connect loadConcept loadRelationship loadAncestor createIndexes : Except E Unit) :
    BuildSt × Except (BuildError E) Unit :=
  let s1 := doUnlink s0
  match connect with
  | .error e => (doUnlink s1, .error (.buildFailed e))
  | .ok _ =>
    let s2 := doConnect s1
    let stages : Except E Unit := do
      loadConcept
      loadRelationship
      loadAncestor
      createIndexes
    match stages with
    | .error e => (doUnlink (doClose s2), .error (.buildFailed e))
    | .ok _ => (doClose s2, .ok ())

/-! ## Builder: `CodexBuilder.build_vectors` (build.py lines 133-210) -/

/-- The columns of a fetched CONCEPT row that the batch loop reads
(`row[0]` and `row[1]`). -/
structure ConceptRow where
  concept_id : Int
  concept_name : String
deriving Repr, DecidableEq

/-- One record appended to the LanceDB table (build.py lines 186-190). -/
structure VectorRecord where
  vector : List Rat
  concept_id : Int
  concept_name : String
deriving Repr, DecidableEq

/-- Failure modes of the batch loop: `embed_batch` raised, or
`embeddings[i]` was out of range (Python `IndexError`). -/
inductive VecBuildError (E : Type) where
  | embedFailed (e : E)
  | indexError
deriving Repr, DecidableEq

/-- The record-building loop `for i, row in enumerate(rows)` (build.py
lines 184-191): `embeddings[i]` raises `IndexError` when `i` is past the
end of the returned vectors; vectors beyond `len(rows)` are never read. -/
def buildRecords {E : Type} (embeddings : List (List Rat)) :
    List ConceptRow → Nat → Except (VecBuildError E) (List VectorRecord)
  | [], _ => .ok []
  | row :: rest, i =>
    match embeddings.get? i with
    | none => .error .indexError
    | some v => do
      let rs ← buildRecords embeddings rest (i + 1)
      pure ({ vector := v, concept_id := row.concept_id,
              concept_name := row.concept_name } :: rs)

/-- One iteration of `batch_generator` (build.py lines 166-194) on a
non-empty batch: embed the batch of names, then build one record per row. -/
def processBatch {E : Type}
    (embed_batch : List String → Except E (List (List Rat)))
    (rows : List ConceptRow) : Except (VecBuildError E) (List VectorRecord) :=
  match embed_batch (rows.map (fun r => r.concept_name)) with
  | .error e => .error (.embedFailed e)
  | .ok embeddings => buildRecords embeddings rows 0

/-- The whole generator drained by `lance_db.create_table` over the
`fetchmany` batches, in order. -/
def batchLoop {E : Type} (embed_batch : List String → Except E (List (List Rat))) :
    List (List ConceptRow) → Except (VecBuildError E) (List VectorRecord)
  | [] => .ok []
  | b :: bs => do
    let recs ← processBatch embed_batch b
    let rest ← batchLoop embed_batch bs
    pure (recs ++ rest)

/-- Model of the `CodexBuilder.build_vectors` outcome over given batches: the outer
`except` (build.py lines 206-208) wraps any generator failure in
`RuntimeError(f"Vector build failed: {e}")`. -/
def build_vectors {E : Type}
    (embed_batch : List String → Except E (List (List Rat)))
    (batches : List (List ConceptRow)) :
    Except (BuildError (VecBuildError E)) (List VectorRecord) :=
  match batchLoop embed_batch batches with
  | .ok recs => .ok recs
  | .error e => .error (.buildFailed e)

/-- The probe trace produced by a run of clean manifest entries: all four
probes per entry, in order. -/
def cleanTrace (pre : List (String × String)) : List VEvent :=
  pre.flatMap (fun p =>
    [.pathCheck p.1, .existCheck p.1, .symlinkCheck p.1, .hashed p.1])

/-! ## Concrete fixtures used by witnesses and counterexamples -/

/-- Non-standard concept with an active Maps-to edge, as in the repository
fixture of test_normalizer_edge_cases.py. -/
def mdlConcept300 : Concept :=
  ⟨300, "Multi Mapping Code", "Condition", "Test", "Test Class", none, "C300"⟩

/-- Standard mapping target of `mdlConcept300`. -/
def mdlConcept1000 : Concept :=
  ⟨1000, "Standard A", "Condition", "Test", "Test Class", some "S", "S1000"⟩

/-- Concept table holding the non-standard concept and its standard target. -/
def fixtureConcepts : List Concept := [mdlConcept300, mdlConcept1000]

/-- An active `"Maps to"` edge from 300 to 1000. -/
def fixtureRels : List ConceptRelationship := [⟨300, 1000, "Maps to", none⟩]

/-- A total embedder stub. -/
def fixtureEmbed : String → List Rat := fun _ => [1]

/-- Store whose vector search returns the single hit 300 at distance 0. -/
def fixtureStoreC1 : NormStore := ⟨fun _ => [⟨300, 0⟩], fixtureConcepts⟩

/-- Concept whose domain tag contains a space, so an equality filter on it
can only be reached if the filter string flows through unvalidated. -/
def conceptOddDomain : Concept :=
  ⟨42, "X", "Condition Filter", "SNOMED", "CF", some "S", "X42"⟩

/-- Store returning hit 42 at distance 0 over the odd-domain concept. -/
def fixtureStoreOdd : NormStore := ⟨fun _ => [⟨42, 0⟩], [conceptOddDomain]⟩

/-- An ordinary drug concept for the domain push-down witness. -/
def conceptDrug : Concept :=
  ⟨42, "Metformin", "Drug", "RxNorm", "Ingredient", some "S", "X42"⟩

/-- Store returning hit 42 at distance 0 over the drug concept. -/
def fixtureStoreDrug : NormStore := ⟨fun _ => [⟨42, 0⟩], [conceptDrug]⟩

/-- Standard concept hit twice by the vector search. -/
def conceptSeven : Concept :=
  ⟨7, "Nausea", "Condition", "SNOMED", "Clinical Finding", some "S", "C7"⟩

/-- Store whose search returns the same id twice, distances ascending 0
then 2, over a one-concept table. -/
def fixtureStoreDup : NormStore := ⟨fun _ => [⟨7, 0⟩, ⟨7, 2⟩], [conceptSeven]⟩

/-- The single match normalize produces on `fixtureStoreDup`. -/
def matchDup : CodexMatch := ⟨"t", conceptSeven, 1 - 0, true, none⟩

/-- Filesystem with a dangling symlink at every path: the resolved path
stays inside the root, `exists()` (which follows the link) is false, and
`is_symlink()` is true. -/
def fsDangling : PackFS := ⟨fun _ => true, fun _ => false, fun _ => true, fun _ => "h"⟩

/-- Filesystem where only the path `link` is a symlink (with an existing
in-root target) and every artifact hashes to `h`. -/
def fsSymlinkPack : PackFS :=
  ⟨fun _ => true, fun _ => true, fun n => n == "link", fun _ => "h"⟩

/-- Filesystem where only `../evil` escapes the pack root; everything else
is a clean regular file hashing to `h1`. -/
def fsTraversal : PackFS :=
  ⟨fun n => !(n == "../evil"), fun _ => true, fun _ => false, fun _ => "h1"⟩

/-- A fully built context over unit component types. -/
def ctxUnit : CodexContext Unit Unit Unit Unit Unit Unit := ⟨(), (), (), (), (), ()⟩

/-- A loader stub that always fails with error code 7. -/
def failLoadCodex : String → Except Nat (Unit × Unit) := fun _ => .error 7

/-- Trivially succeeding component constructors over unit types. -/
def mkEmbedderU : Unit → Except Nat Unit := fun _ => .ok ()

/-- See `mkEmbedderU`. -/
def mkNormalizerU : Unit → Unit → Unit → Except Nat Unit := fun _ _ _ => .ok ()

/-- See `mkEmbedderU`. -/
def mkHierarchyU : Unit → Except Nat Unit := fun _ => .ok ()

/-- See `mkEmbedderU`. -/
def mkCrosswalkerU : Unit → Except Nat Unit := fun _ => .ok ()

/-- Two CONCEPT rows forming one embedding batch. -/
def rowA : ConceptRow := ⟨1, "A"⟩

/-- See `rowA`. -/
def rowB : ConceptRow := ⟨2, "B"⟩

/-- Embedder stub returning one vector regardless of batch size. -/
def embedOneVec : List String → Except Unit (List (List Rat)) := fun _ => .ok [[1]]

/-- Embedder stub returning three vectors regardless of batch size. -/
def embedThreeVec : List String → Except Unit (List (List Rat)) :=
  fun _ => .ok [[1], [2], [3]]

/-! ## Helper lemmas -/

theorem perm_insertByScoreDesc (m : CodexMatch) (l : List CodexMatch) :
    List.Perm (insertByScoreDesc m l) (m :: l) := by
  induction l with
  | nil => exact List.Perm.refl _
  | cons x xs ih =>
    by_cases h : m.similarity_score ≥ x.similarity_score
    · simp only [insertByScoreDesc, if_pos h]
      exact List.Perm.refl _
    · simp only [insertByScoreDesc, if_neg h]
      exact (ih.cons x).trans (List.Perm.swap m x xs)

theorem sortByScoreDesc_perm (l : List CodexMatch) :
    List.Perm (sortByScoreDesc l) l := by
  induction l with
  | nil => exact List.Perm.refl _
  | cons x xs ih =>
    exact (perm_insertByScoreDesc x (sortByScoreDesc xs)).trans (ih.cons x)

theorem buildScoresAux_find_eq (i : Int) :
    ∀ (rs : List VecResult) (seen : List Int), i ∉ seen →
      (buildScoresAux seen rs).find? (fun p => p.1 == i) =
        (rs.find? (fun r => r.concept_id == i)).map (fun r => (i, 1 - r.dist)) := by
  intro rs
  induction rs with
  | nil => intro seen _; simp [buildScoresAux]
  | cons r rs ih =>
    intro seen hseen
    by_cases hmem : r.concept_id ∈ seen
    · have hne : (r.concept_id == i) = false := by
        simp only [beq_eq_false_iff_ne, ne_eq]
        intro h; exact hseen (h ▸ hmem)
      simp only [buildScoresAux, if_pos hmem, List.find?_cons, hne]
      exact ih seen hseen
    · by_cases hid : r.concept_id = i
      · have hpos : (r.concept_id == i) = true := by simp [hid]
        simp only [buildScoresAux, if_neg hmem, List.find?_cons, hpos]
        simp [hid]
      · have hne : (r.concept_id == i) = false := by simp [hid]
        simp only [buildScoresAux, if_neg hmem, List.find?_cons, hne]
        exact ih (r.concept_id :: seen) (by
          intro h
          rcases List.mem_cons.mp h with h1 | h1
          · exact hid h1.symm
          · exact hseen h1)

theorem buildScoresAux_keys_nodup :
    ∀ (rs : List VecResult) (seen : List Int),
      ((buildScoresAux seen rs).map Prod.fst).Nodup ∧
        ∀ j ∈ (buildScoresAux seen rs).map Prod.fst, j ∉ seen := by
  intro rs
  induction rs with
  | nil => intro seen; simp [buildScoresAux]
  | cons r rs ih =>
    intro seen
    by_cases hmem : r.concept_id ∈ seen
    · simpa only [buildScoresAux, if_pos hmem] using ih seen
    · simp only [buildScoresAux, if_neg hmem, List.map_cons]
      refine ⟨List.nodup_cons.mpr ⟨?_, (ih (r.concept_id :: seen)).1⟩, ?_⟩
      · intro hin
        exact (ih (r.concept_id :: seen)).2 r.concept_id hin (List.mem_cons_self _ _)
      · intro j hj
        rcases List.mem_cons.mp hj with h1 | h1
        · exact h1 ▸ hmem
        · intro hjs
          exact (ih (r.concept_id :: seen)).2 j h1 (List.mem_cons_of_mem _ hjs)

theorem buildScoresAux_length_le :
    ∀ (rs : List VecResult) (seen : List Int),
      (buildScoresAux seen rs).length ≤ rs.length := by
  intro rs
  induction rs with
  | nil => intro seen; simp [buildScoresAux]
  | cons r rs ih =>
    intro seen
    by_cases hmem : r.concept_id ∈ seen
    · simp only [buildScoresAux, if_pos hmem, List.length_cons]
      exact Nat.le_succ_of_le (ih seen)
    · simp only [buildScoresAux, if_neg hmem, List.length_cons]
      exact Nat.succ_le_succ (ih (r.concept_id :: seen))

/-- Every element of the normalize output is built from a hydrated row,
with the score looked up in the first-score map. -/
theorem mem_normalize {embed : String → List Rat} {st : NormStore}
    {text : String} {k : Nat} {df : Option String} {m : CodexMatch}
    (hm : m ∈ normalize embed st text k df) :
    ∃ c ∈ hydrate st.concept
        ((conceptScores ((st.search (embed text)).take k)).map Prod.fst) df,
      m = { input_text := text, match_concept := c,
            similarity_score :=
              scoreGetD (conceptScores ((st.search (embed text)).take k))
                c.concept_id 0,
            is_standard := c.standard_concept == some "S",
            mapped_standard_id := none } := by
  by_cases h1 : strippedEmpty text
  · simp [normalize, h1] at hm
  · by_cases h2 : ((st.search (embed text)).take k).isEmpty
    · simp [normalize, h1, h2] at hm
    · simp only [normalize, h1, h2, Bool.false_eq_true, if_false] at hm
      have hm' := ((sortByScoreDesc_perm _).mem_iff).mp hm
      rcases List.mem_map.mp hm' with ⟨c, hc, hmc⟩
      exact ⟨c, hc, hmc.symm⟩

/-- The hydrated rows are no more numerous than the vector hits and carry
pairwise distinct concept ids whenever the concept table does. -/
theorem hydrate_length_nodup (tbl : List Concept) (rs : List VecResult)
    (df : Option String)
    (hnd : (tbl.map (fun c => c.concept_id)).Nodup) :
    (hydrate tbl ((conceptScores rs).map Prod.fst) df).length ≤ rs.length ∧
      ((hydrate tbl ((conceptScores rs).map Prod.fst) df).map
        (fun c => c.concept_id)).Nodup := by
  have hidnd : ((conceptScores rs).map Prod.fst).Nodup :=
    (buildScoresAux_keys_nodup rs []).1
  have hsub : List.Sublist (hydrate tbl ((conceptScores rs).map Prod.fst) df) tbl :=
    List.filter_sublist _
  have hmapnd : ((hydrate tbl ((conceptScores rs).map Prod.fst) df).map
      (fun c => c.concept_id)).Nodup :=
    List.Nodup.sublist (hsub.map _) hnd
  have hsubset : ((hydrate tbl ((conceptScores rs).map Prod.fst) df).map
      (fun c => c.concept_id)) ⊆ (conceptScores rs).map Prod.fst := by
    intro j hj
    rcases List.mem_map.mp hj with ⟨c, hc, rfl⟩
    have hcond := (List.mem_filter.mp hc).2
    have h1 : ((conceptScores rs).map Prod.fst).contains c.concept_id = true := by
      cases hand : ((conceptScores rs).map Prod.fst).contains c.concept_id
      · rw [hand] at hcond; simp at hcond
      · rfl
    simpa using h1
  have hlen : (hydrate tbl ((conceptScores rs).map Prod.fst) df).length ≤
      ((conceptScores rs).map Prod.fst).length := by
    have hsp := List.subperm_of_subset hmapnd hsubset
    simpa using hsp.length_le
  have hlen2 : ((conceptScores rs).map Prod.fst).length ≤ rs.length := by
    simpa using buildScoresAux_length_le rs []
  exact ⟨le_trans hlen hlen2, hmapnd⟩

/-- C5: for a vector result sequence sorted by ascending distance, every
match the call returns carries similarity `1 - d_first`, where `d_first`
is the distance at the first index where the match id occurs; later
duplicates never overwrite that score. -/
theorem normalize_keeps_first_score
    (embed : String → List Rat) (st : NormStore) (text : String) (k : Nat)
    (df : Option String) (m : CodexMatch) (r : VecResult)
    (_hsorted : ((st.search (embed text)).take k).Pairwise
      (fun a b => a.dist ≤ b.dist))
    (hm : m ∈ normalize embed st text k df)
    (hfind : ((st.search (embed text)).take k).find?
        (fun x => x.concept_id == m.match_concept.concept_id) = some r) :
    m.similarity_score = 1 - r.dist := by
  rcases mem_normalize hm with ⟨c, hc, rfl⟩
  have hfind' : ((st.search (embed text)).take k).find?
      (fun x => x.concept_id == c.concept_id) = some r := hfind
  show scoreGetD (conceptScores ((st.search (embed text)).take k))
      c.concept_id 0 = 1 - r.dist
  unfold scoreGetD conceptScores
  rw [buildScoresAux_find_eq c.concept_id ((st.search (embed text)).take k) []
    (List.not_mem_nil _), hfind']
  rfl

/-- C5 witness: on a store returning id 7 at distances 0 then 2, the
returned match keeps the first score `1 - 0`. -/
theorem normalize_keeps_first_score_witness :
    matchDup.similarity_score = 1 - (⟨7, 0⟩ : VecResult).dist :=
  normalize_keeps_first_score fixtureEmbed fixtureStoreDup "t" 10 none
    matchDup ⟨7, 0⟩ (by decide) (List.mem_singleton_self matchDup) (by decide)

/-- C10: with concept ids unique in the concept table, normalize returns
at most `k` matches and no two returned matches share a concept id. -/
theorem normalize_length_le_nodup
    (embed : String → List Rat) (st : NormStore) (text : String) (k : Nat)
    (df : Option String)
    (hnd : (st.concept.map (fun c => c.concept_id)).Nodup) :
    (normalize embed st text k df).length ≤ k ∧
      ((normalize embed st text k df).map
        (fun m => m.match_concept.concept_id)).Nodup := by
  by_cases h1 : strippedEmpty text
  · simp [normalize, h1]
  · by_cases h2 : ((st.search (embed text)).take k).isEmpty
    · simp [normalize, h1, h2]
    · simp only [normalize, h1, h2, Bool.false_eq_true, if_false]
      have hperm := sortByScoreDesc_perm
        ((hydrate st.concept
            ((conceptScores ((st.search (embed text)).take k)).map Prod.fst)
            df).map (fun c =>
          { input_text := text, match_concept := c,
            similarity_score :=
              scoreGetD (conceptScores ((st.search (embed text)).take k))
                c.concept_id 0,
            is_standard := c.standard_concept == some "S",
            mapped_standard_id := none : CodexMatch }))
      have hkey := hydrate_length_nodup st.concept
        ((st.search (embed text)).take k) df hnd
      constructor
      · have hlen := hperm.length_eq
        rw [hlen, List.length_map]
        refine le_trans hkey.1 ?_
        rw [List.length_take]
        exact min_le_left _ _
      · have hmapperm := hperm.map (fun m => m.match_concept.concept_id)
        rw [List.Perm.nodup_iff hmapperm, List.map_map]
        simpa using hkey.2

/-- C10 witness at the duplicate-hit store. -/
theorem normalize_length_le_nodup_witness :
    (normalize fixtureEmbed fixtureStoreDup "t" 10 none).length ≤ 10 ∧
      ((normalize fixtureEmbed fixtureStoreDup "t" 10 none).map
        (fun m => m.match_concept.concept_id)).Nodup :=
  normalize_length_le_nodup fixtureEmbed fixtureStoreDup "t" 10 none (by decide)

/-- C1 (code divergence): on a store where the hit concept 300 is
non-standard and has an active Maps-to edge to standard concept 1000,
normalize still returns `mapped_standard_id = none`; no standard-mapping
query exists in the source. -/
theorem normalize_elevation_missing_eval :
    spec_activeMapsToStandard fixtureRels fixtureConcepts 300 1000 = true ∧
      normalize fixtureEmbed fixtureStoreC1 "test" 10 none =
        [{ input_text := "test", match_concept := mdlConcept300,
           similarity_score := 1 - 0, is_standard := false,
           mapped_standard_id := none }] :=
  ⟨by decide, by rfl⟩

/-- C2 counterexample: a domain filter violating `^[A-Za-z0-9_]+$` is not
rejected; the call runs retrieval and hydration and returns a hydrated
match whose domain equals the invalid filter string. -/
theorem normalize_invalid_domain_filter_accepted :
    spec_domainFilterValid "Condition Filter" = false ∧
      normalize fixtureEmbed fixtureStoreOdd "x" 5 (some "Condition Filter") =
        [{ input_text := "x", match_concept := conceptOddDomain,
           similarity_score := 1 - 0, is_standard := true,
           mapped_standard_id := none }] :=
  ⟨by decide, by rfl⟩

/-- C2 amended: normalize never validates `domain_filter` and raises no
error for it.  A non-empty filter string (regex-conforming or not) is
bound as a parameter of the hydration query, so every returned match has
exactly that domain tag; the empty string — which also fails the regex —
is falsy in Python, so the clause is skipped entirely and the call behaves
exactly as if no filter were given. -/
theorem normalize_domain_filter_parameter_bound
    (embed : String → List Rat) (st : NormStore) (text : String) (k : Nat)
    (df : String) :
    (df ≠ "" → ((normalize embed st text k (some df)).all
      (fun m => m.match_concept.domain_id == df)) = true) ∧
      normalize embed st text k (some "") = normalize embed st text k none := by
  constructor
  · intro hdf
    rw [List.all_eq_true]
    intro m hm
    rcases mem_normalize hm with ⟨c, hc, rfl⟩
    have hcond := (List.mem_filter.mp hc).2
    have hdf' : (df == "") = false := by simpa using hdf
    simp only [Bool.and_eq_true] at hcond
    have h3 : (if (df == "") = true then true else c.domain_id == df) = true :=
      hcond.2
    rw [hdf'] at h3
    simpa using h3
  · rfl

/-- C2 amended witness: at the drug-concept store the filter `Drug` tags
every match, and the empty filter behaves exactly like no filter. -/
theorem normalize_domain_filter_parameter_bound_witness :
    ((normalize fixtureEmbed fixtureStoreDrug "x" 3 (some "Drug")).all
      (fun m => m.match_concept.domain_id == "Drug")) = true ∧
      normalize fixtureEmbed fixtureStoreDrug "x" 3 (some "") =
        normalize fixtureEmbed fixtureStoreDrug "x" 3 none :=
  ⟨(normalize_domain_filter_parameter_bound fixtureEmbed fixtureStoreDrug
      "x" 3 "Drug").1 (by decide),
    (normalize_domain_filter_parameter_bound fixtureEmbed fixtureStoreDrug
      "x" 3 "").2⟩

/-- Clean entries are fully probed and passed over; verification continues
on the remaining entries with the clean probe trace prepended. -/
theorem verifyEntries_append_clean (fs : PackFS) :
    ∀ (pre rest : List (String × String)),
      (∀ p ∈ pre, entryClean fs p = true) →
      verifyEntries fs (pre ++ rest) =
        (cleanTrace pre ++ (verifyEntries fs rest).1,
          (verifyEntries fs rest).2) := by
  intro pre
  induction pre with
  | nil => intro rest _; simp [cleanTrace]
  | cons p ps ih =>
    intro rest hclean
    obtain ⟨name, expected⟩ := p
    have hp := hclean _ (List.mem_cons_self _ _)
    simp only [entryClean, Bool.and_eq_true, Bool.not_eq_true'] at hp
    obtain ⟨⟨⟨h1, h2⟩, h3⟩, h4⟩ := hp
    have h4' : fs.sha256 name = expected := by simpa using h4
    have hrec := ih rest (fun q hq => hclean q (List.mem_cons_of_mem _ hq))
    simp only [List.cons_append, verifyEntries, h1, h2, h3, h4', ne_eq,
      not_true_eq_false, Bool.not_true, Bool.false_eq_true, if_false, hrec,
      cleanTrace, List.flatMap_cons, List.append_assoc, List.cons_append,
      List.nil_append]
    simp [hrec, cleanTrace]

/-- A hash probe in a clean-entry trace names one of those entries. -/
theorem hashed_mem_cleanTrace {j : String} {pre : List (String × String)}
    (h : VEvent.hashed j ∈ cleanTrace pre) : j ∈ pre.map Prod.fst := by
  rcases List.mem_flatMap.mp h with ⟨p, hp, hmem⟩
  have hj : j = p.1 := by
    simp at hmem
    exact hmem
  exact hj ▸ List.mem_map.mpr ⟨p, hp, rfl⟩

/-- C9: an empty checksums map makes `verify_integrity` succeed with no
path, existence, symlink, or hash probe at all, whatever the filesystem
holds. -/
theorem verify_empty_checksums_trivial (fs : PackFS) :
    verifyEntries fs [] = ([], .ok ()) := rfl

/-- C4 counterexample: an entry that is a dangling symlink (inside the
root, `is_symlink` true, but `exists()` false because it follows the
link) fails with the missing-artifact error, not the symlink violation. -/
theorem verify_dangling_symlink_cex :
    fsDangling.isSymlink "link" = true ∧
      verifyEntries fsDangling [("link", "h")] =
        ([.pathCheck "link", .existCheck "link"],
          .error (.artifactMissing "link")) :=
  ⟨rfl, by rfl⟩

/-- C4 amended: a manifest entry that is a symlink resolving inside the
pack root and whose target exists fails with `SecurityViolation{symlink}`
(once the preceding entries are clean); dangling symlinks instead hit the
existence check first. -/
theorem verify_symlink_rejected_when_target_exists (fs : PackFS)
    (pre post : List (String × String)) (name expected : String)
    (hpre : ∀ p ∈ pre, entryClean fs p = true)
    (hroot : fs.resolvesInsideRoot name = true)
    (hex : fs.pathExists name = true)
    (hsym : fs.isSymlink name = true) :
    (verifyEntries fs (pre ++ (name, expected) :: post)).2 =
      .error (.symlinkViolation name) := by
  rw [verifyEntries_append_clean fs pre _ hpre]
  simp [verifyEntries, hroot, hex, hsym]

/-- C4 amended witness: the clean store file passes, then the in-root
symlink with an existing target is rejected as a symlink violation. -/
theorem verify_symlink_rejected_witness :
    (verifyEntries fsSymlinkPack
      [("vocab.duckdb", "h"), ("link", "x"), ("post", "y")]).2 =
      .error (.symlinkViolation "link") :=
  verify_symlink_rejected_when_target_exists fsSymlinkPack
    [("vocab.duckdb", "h")] [("post", "y")] "link" "x"
    (by decide) rfl rfl (by decide)

/-- C6 counterexample: with a clean first entry followed by a traversal
entry, `verify_integrity` does fail with the path-traversal violation,
but only after the first artifact was already hashed. -/
theorem verify_hash_before_traversal_cex :
    verifyEntries fsTraversal [("good", "h1"), ("../evil", "h2")] =
      ([.pathCheck "good", .existCheck "good", .symlinkCheck "good",
        .hashed "good", .pathCheck "../evil"],
        .error (.pathTraversal "../evil")) ∧
      VEvent.hashed "good" ∈
        (verifyEntries fsTraversal [("good", "h1"), ("../evil", "h2")]).1 :=
  ⟨by rfl, by decide⟩

/-- C6 amended: a traversal entry makes `verify_integrity` fail with
`SecurityViolation{path_traversal}` as soon as the loop reaches it, before
that entry itself is hashed — though each earlier (clean) manifest entry
has already been hashed by then. -/
theorem verify_traversal_fails_at_entry (fs : PackFS)
    (pre post : List (String × String)) (name expected : String)
    (hpre : ∀ p ∈ pre, entryClean fs p = true)
    (hroot : fs.resolvesInsideRoot name = false)
    (hnotin : name ∉ pre.map Prod.fst) :
    verifyEntries fs (pre ++ (name, expected) :: post) =
      (cleanTrace pre ++ [.pathCheck name], .error (.pathTraversal name)) ∧
      VEvent.hashed name ∉
        (verifyEntries fs (pre ++ (name, expected) :: post)).1 := by
  have hmain : verifyEntries fs (pre ++ (name, expected) :: post) =
      (cleanTrace pre ++ [.pathCheck name], .error (.pathTraversal name)) := by
    rw [verifyEntries_append_clean fs pre _ hpre]
    simp [verifyEntries, hroot]
  refine ⟨hmain, ?_⟩
  rw [hmain]
  intro hmem
  rcases List.mem_append.mp hmem with h | h
  · exact hnotin (hashed_mem_cleanTrace h)
  · simp at h

/-- C6 amended witness over the two-entry traversal fixture. -/
theorem verify_traversal_fails_witness :
    verifyEntries fsTraversal [("good", "h1"), ("../evil", "h2")] =
      (cleanTrace [("good", "h1")] ++ [.pathCheck "../evil"],
        .error (.pathTraversal "../evil")) ∧
      VEvent.hashed "../evil" ∉
        (verifyEntries fsTraversal [("good", "h1"), ("../evil", "h2")]).1 :=
  verify_traversal_fails_at_entry fsTraversal [("good", "h1")] []
    "../evil" "h2" (by decide) (by decide) (by decide)

/-- C7: when `cls(pack_path)` raises at any stage of construction, the
singleton slot is unchanged and `get_instance` afterwards answers exactly
as before the failed call. -/
theorem init_failure_keeps_context
    {E Conn VDB Emb Norm Hier Cross : Type}
    (load_codex : String → Except E (Conn × VDB))
    (mkEmbedder : Unit → Except E Emb)
    (mkNormalizer : Emb → Conn → VDB → Except E Norm)
    (mkHierarchy : Conn → Except E Hier)
    (mkCrosswalker : Conn → Except E Cross)
    (slot : Option (CodexContext Conn VDB Emb Norm Hier Cross))
    (pack_path : String) (e : E)
    (hfail : constructContext load_codex mkEmbedder mkNormalizer mkHierarchy
        mkCrosswalker pack_path = .error e) :
    (initStep (constructContext load_codex mkEmbedder mkNormalizer
        mkHierarchy mkCrosswalker) slot pack_path).1 = slot ∧
      getInstance (initStep (constructContext load_codex mkEmbedder
        mkNormalizer mkHierarchy mkCrosswalker) slot pack_path).1 =
        getInstance slot := by
  simp [initStep, hfail]

/-- C7 witness: a failing loader leaves a previously published context in
place. -/
theorem init_failure_keeps_context_witness :
    (initStep (constructContext failLoadCodex mkEmbedderU mkNormalizerU
        mkHierarchyU mkCrosswalkerU) (some ctxUnit) "pack").1 = some ctxUnit ∧
      getInstance (initStep (constructContext failLoadCodex mkEmbedderU
        mkNormalizerU mkHierarchyU mkCrosswalkerU) (some ctxUnit) "pack").1 =
        getInstance (some ctxUnit) :=
  init_failure_keeps_context failLoadCodex mkEmbedderU mkNormalizerU
    mkHierarchyU mkCrosswalkerU (some ctxUnit) "pack" 7 rfl

/-- C8: if any stage after the store file was created fails, `build_vocab`
returns with the connection closed and the partial file deleted, the
failure wrapped as a build error. -/
theorem build_vocab_cleanup_on_failure {E : Type} (s0 : BuildSt)
    (connect loadConcept loadRelationship loadAncestor createIndexes :
      Except E Unit) (e : E)
    (hconnect : connect = .ok ())
    (hfail : (do loadConcept; loadRelationship; loadAncestor; createIndexes :
        Except E Unit) = .error e) :
    build_vocab s0 connect loadConcept loadRelationship loadAncestor
        createIndexes =
      (⟨false, false⟩, .error (.buildFailed e)) := by
  simp [build_vocab, hconnect, hfail, doUnlink, doClose, doConnect]

/-- C8 witness: a failing CONCEPT load leaves no file and no open handle. -/
theorem build_vocab_cleanup_witness :
    build_vocab (⟨true, false⟩ : BuildSt) (.ok ()) (.error (3 : Nat)) (.ok ())
        (.ok ()) (.ok ()) =
      (⟨false, false⟩, .error (.buildFailed 3)) :=
  build_vocab_cleanup_on_failure ⟨true, false⟩ (.ok ()) (.error 3) (.ok ())
    (.ok ()) (.ok ()) 3 rfl rfl

/-- When the embedder returns fewer vectors than there are rows left, the
record loop hits an out-of-range index. -/
theorem buildRecords_error_of_short {E : Type} (embeddings : List (List Rat)) :
    ∀ (rows : List ConceptRow) (i : Nat), rows ≠ [] →
      embeddings.length < i + rows.length →
      buildRecords (E := E) embeddings rows i = .error .indexError := by
  intro rows
  induction rows with
  | nil => intro i h _; exact absurd rfl h
  | cons row rest ih =>
    intro i _ hlen
    by_cases hi : embeddings.length ≤ i
    · have hnone : embeddings[i]? = none := by
        rw [List.getElem?_eq_none_iff]; exact hi
      simp [buildRecords, hnone]
    · push_neg at hi
      have hv : embeddings[i]? = some embeddings[i] :=
        List.getElem?_eq_getElem hi
      have hrest : rest ≠ [] := by
        intro h
        subst h
        simp only [List.length_cons, List.length_nil] at hlen
        omega
      have hrec := ih (i + 1) hrest (by
        simp only [List.length_cons] at hlen ⊢
        omega)
      simp [buildRecords, hv, hrec]

/-- When the embedder returns at least as many vectors as rows, the record
loop succeeds and emits exactly one record per row. -/
theorem buildRecords_ok_of_long {E : Type} (embeddings : List (List Rat)) :
    ∀ (rows : List ConceptRow) (i : Nat), i + rows.length ≤ embeddings.length →
      ∃ rs, buildRecords (E := E) embeddings rows i = .ok rs ∧
        rs.length = rows.length := by
  intro rows
  induction rows with
  | nil => intro i _; exact ⟨[], rfl, rfl⟩
  | cons row rest ih =>
    intro i hlen
    have hi : i < embeddings.length := by
      simp only [List.length_cons] at hlen
      omega
    obtain ⟨v, hv⟩ : ∃ v, embeddings[i]? = some v :=
      ⟨embeddings[i], List.getElem?_eq_getElem hi⟩
    obtain ⟨rs, hrs, hlenr⟩ := ih (i + 1) (by
      simp only [List.length_cons] at hlen ⊢
      omega)
    refine ⟨(⟨v, row.concept_id, row.concept_name⟩ : VectorRecord) :: rs,
      ?_, by simp [hlenr]⟩
    simp [buildRecords, hv, hrs]

/-- C3 counterexample: a one-vector reply to a two-name batch aborts with
a wrapped index error (no dedicated shape error exists), while a
three-vector reply to the same batch succeeds, silently dropping the
extra vector. -/
theorem build_vectors_shape_unchecked_cex :
    build_vectors embedOneVec [[rowA, rowB]] =
        .error (.buildFailed .indexError) ∧
      build_vectors embedThreeVec [[rowA, rowB]] =
        .ok [⟨[1], 1, "A"⟩, ⟨[2], 2, "B"⟩] :=
  ⟨by rfl, by rfl⟩

/-- C3 amended: a batch whose embedding reply is shorter than the name
list fails with the wrapped index error; a reply at least as long
succeeds with exactly one record per name, extra vectors ignored. -/
theorem build_vectors_short_long_batch {E : Type}
    (embed_batch : List String → Except E (List (List Rat)))
    (rows : List ConceptRow) (embeddings : List (List Rat))
    (hemb : embed_batch (rows.map (fun r => r.concept_name)) = .ok embeddings) :
    (embeddings.length < rows.length →
      build_vectors embed_batch [rows] = .error (.buildFailed .indexError)) ∧
      (rows.length ≤ embeddings.length →
        (build_vectors embed_batch [rows]).map List.length =
          .ok rows.length) := by
  constructor
  · intro hlt
    have hne : rows ≠ [] := by
      intro h
      subst h
      simp at hlt
    have herr := buildRecords_error_of_short (E := E) embeddings rows 0 hne
      (by omega)
    simp only [build_vectors, batchLoop, processBatch, hemb, herr]
    rfl
  · intro hle
    obtain ⟨rs, hok, hlen⟩ := buildRecords_ok_of_long (E := E) embeddings rows 0
      (by omega)
    have hred : build_vectors embed_batch [rows] = .ok (rs ++ []) := by
      simp only [build_vectors, batchLoop, processBatch, hemb, hok]
      rfl
    rw [hred]
    simp [Except.map, hlen]

/-- C3 amended witness on the one-vector embedder and a two-row batch. -/
theorem build_vectors_short_long_batch_witness :
    (([[(1 : Rat)]] : List (List Rat)).length < [rowA, rowB].length →
      build_vectors embedOneVec [[rowA, rowB]] =
        .error (.buildFailed .indexError)) ∧
      ([rowA, rowB].length ≤ ([[(1 : Rat)]] : List (List Rat)).length →
        (build_vectors embedOneVec [[rowA, rowB]]).map List.length =
          .ok [rowA, rowB].length) :=
  build_vectors_short_long_batch embedOneVec [rowA, rowB] [[1]] rfl

end Codex
